import Mathlib

/-!
Verification of the keeks repository (bet-sizing strategies and bankroll
management) against its natural-language specification.

The definitions below are shallow embeddings of the Python source:

* `src/keeks/bankroll.py` (class BankRoll),
* `src/keeks/binary_strategies/base.py` (BaseStrategy.get_max_safe_bet),
* `src/keeks/binary_strategies/kelly.py` (KellyCriterion,
  FractionalKellyCriterion, DrawdownAdjustedKelly),
* `src/keeks/binary_strategies/simple.py` (NaiveStrategy,
  FixedFractionStrategy, CPPIStrategy, DynamicBankrollManagement,
  OptimalF, MertonShare),
* `src/keeks/utils.py` (find_indifference_price).

Python float arithmetic is modelled as exact arithmetic: over the
rationals where the source computes only with field operations and
comparisons, and over the reals for DynamicBankrollManagement, whose
volatility factor takes a square root.  Functions that can raise a
Python ZeroDivisionError are additionally embedded in a checked variant
returning an `Option`, where `none` models the raise; every division the
source performs is guarded by a test that its denominator is nonzero in
those variants.  Mutable objects (BankRoll, the CPPI and
DynamicBankrollManagement strategies) become explicit state records, and
methods become functions from state to state; a method that may raise
returns the state paired with a flag (the state records the mutations
the source performed before raising, which is observable behaviour).
-/

namespace Keeks

/-- Python round-half-to-even of a rational to the nearest integer,
as used by the built-in `round`. -/
def roundHalfEven (q : ℚ) : ℤ :=
  let f := ⌊q⌋
  let r := q - f
  if r < 1/2 then f
  else if 1/2 < r then f + 1
  else if Even f then f else f + 1

/-- Python `round(x, 2)`: round to two decimal places. -/
def round2 (q : ℚ) : ℚ := (roundHalfEven (100 * q) : ℚ) / 100

/-- State of `keeks.bankroll.BankRoll`.  `maxDrawDown = none` models
`max_draw_down=None`. -/
structure BankRoll where
  bank : ℚ
  percentBettable : ℚ
  maxDrawDown : Option ℚ
  history : List ℚ
  deriving Repr, DecidableEq

/-- `BankRoll.__init__`: `history` starts as `[initial_funds]`. -/
def BankRoll.init (initialFunds percentBettable : ℚ)
    (maxDrawDown : Option ℚ) : BankRoll :=
  ⟨initialFunds, percentBettable, maxDrawDown, [initialFunds]⟩

/-- Property `total_funds`: `round(self._bank, 2)`. -/
def BankRoll.totalFunds (b : BankRoll) : ℚ := round2 b.bank

/-- Property `bettable_funds`: `round(self._bank * self.percent_bettable, 2)`. -/
def BankRoll.bettableFunds (b : BankRoll) : ℚ :=
  round2 (b.bank * b.percentBettable)

/-- The guard `self.max_draw_down and amt > self.max_draw_down * total`,
where `total` is the bankroll total (already rounded) the source reads at
that point.  Python truthiness makes both `None` and `0.0` skip the check. -/
def ddCheck (mdd : Option ℚ) (amt total : ℚ) : Bool :=
  match mdd with
  | none => false
  | some v => if v = 0 then false else decide (v * total < amt)

/-- `BankRoll.deposit`: add to the bank and append `total_funds` to history.
Never raises. -/
def BankRoll.deposit (b : BankRoll) (amt : ℚ) : BankRoll :=
  let bank := b.bank + amt
  { b with bank := bank, history := b.history ++ [round2 bank] }

/-- `BankRoll.withdraw`: the source subtracts `amt` from the bank FIRST and
only then tests the drawdown guard against the post-withdrawal
`total_funds`; when the guard fires it raises RuinError("slow down")
with the bank already decremented and no history entry.  The boolean is
true when the RuinError is raised.  There is no bankruptcy check. -/
def BankRoll.withdraw (b : BankRoll) (amt : ℚ) : BankRoll × Bool :=
  let bank := b.bank - amt
  if ddCheck b.maxDrawDown amt (round2 bank) then
    ({ b with bank := bank }, true)
  else
    ({ b with bank := bank, history := b.history ++ [round2 bank] }, false)

/-- `BankRoll.bet`: raises ValueError (flag true) if the amount exceeds
`bettable_funds`, leaving the state unchanged; otherwise debits. -/
def BankRoll.bet (b : BankRoll) (amount : ℚ) : BankRoll × Bool :=
  if b.bettableFunds < amount then (b, true)
  else
    let bank := b.bank - amount
    ({ b with bank := bank, history := b.history ++ [round2 bank] }, false)

/-- `BankRoll.add_funds`: identical to deposit. -/
def BankRoll.addFunds (b : BankRoll) (amount : ℚ) : BankRoll :=
  let bank := b.bank + amount
  { b with bank := bank, history := b.history ++ [round2 bank] }

/-- `BankRoll.remove_funds`: tests the drawdown guard against the CURRENT
(pre-removal) `total_funds` before mutating; raises (flag true) leaving
the state unchanged, otherwise debits and appends history.  There is no
bankruptcy check. -/
def BankRoll.removeFunds (b : BankRoll) (amount : ℚ) : BankRoll × Bool :=
  if ddCheck b.maxDrawDown amount b.totalFunds then (b, true)
  else
    let bank := b.bank - amount
    ({ b with bank := bank, history := b.history ++ [round2 bank] }, false)

/-- `BaseStrategy.get_max_safe_bet`:
`min(1.0, (current_bankroll / (loss + transaction_cost)) / current_bankroll)`.
Generic over the scalar field so that it can be read back at `ℚ` (the
strategies computing only with field operations) and at `ℝ`
(DynamicBankrollManagement). -/
def maxSafeBet {α : Type} [LinearOrderedField α] (loss tc W : α) : α :=
  min 1 ((W / (loss + tc)) / W)

/-- `KellyCriterion.evaluate(probability, current_bankroll)`.  Arguments:
payoff, loss, transaction cost, `min_probability`, probability, bankroll.
The source line `self.payoff / self.loss` computes net odds and discards
the result, so in exact arithmetic it has no effect (see `kellyEvalChecked`
for the ZeroDivisionError it can raise). -/
def kellyEval (payoff loss tc minProb p W : ℚ) : ℚ :=
  if p < minProb then 0
  else
    let q := 1 - p
    let adjPayoff := payoff - tc
    let adjLoss := loss + tc
    if adjPayoff ≤ 0 ∨ adjLoss ≤ 0 then 0
    else
      let b := adjPayoff / adjLoss
      let kf := (b * p - q) / b
      min (max 0 kf) (maxSafeBet loss tc W)

/-- `KellyCriterion.evaluate` with every division the source performs
guarded: `none` models a Python ZeroDivisionError.  The discarded
`self.payoff / self.loss` raises when `loss = 0`, and
`get_max_safe_bet` divides by `current_bankroll`. -/
def kellyEvalChecked (payoff loss tc minProb p W : ℚ) : Option ℚ :=
  if p < minProb then some 0
  else if loss = 0 then none
  else
    let q := 1 - p
    let adjPayoff := payoff - tc
    let adjLoss := loss + tc
    if adjPayoff ≤ 0 ∨ adjLoss ≤ 0 then some 0
    else if adjLoss = 0 then none
    else
      let b := adjPayoff / adjLoss
      if b = 0 then none
      else
        let kf := (b * p - q) / b
        if W = 0 then none
        else some (min (max 0 kf) (maxSafeBet loss tc W))

/-- `FractionalKellyCriterion.evaluate`: builds an inner
`KellyCriterion(payoff, loss, transaction_cost)` with the default
`min_probability=0.5` and scales its result by `fraction`. -/
def fracKellyEval (payoff loss tc fraction p W : ℚ) : ℚ :=
  fraction * kellyEval payoff loss tc (1/2) p W

/-- `DrawdownAdjustedKelly.evaluate`: full Kelly (inner strategy with the
default `min_probability=0.5`) scaled by `min(1, max_acceptable_drawdown / 0.5)`
and clamped to the max safe bet. -/
def drawdownKellyEval (payoff loss tc maxDD p W : ℚ) : ℚ :=
  let fullKelly := kellyEval payoff loss tc (1/2) p W
  let factor := min 1 (maxDD / (1/2))
  min (factor * fullKelly) (maxSafeBet loss tc W)

/-- `OptimalF.evaluate`. -/
def optimalFEval (payoff loss tc winRate maxRisk p W : ℚ) : ℚ :=
  if p < 1/2 then 0
  else
    let adjWinRate := if 0 < p then p else winRate
    let adjLossRate := 1 - adjWinRate
    let reward := payoff - tc
    let risk := loss + tc
    if reward ≤ 0 then 0
    else
      let f := adjWinRate - adjLossRate / (reward / risk)
      let f := min (max 0 f) maxRisk
      min f (maxSafeBet loss tc W)

/-- `NaiveStrategy.evaluate`. -/
def naiveEval (payoff loss tc p W : ℚ) : ℚ :=
  let expectedValue := p * payoff - (1 - p) * loss - tc
  if expectedValue ≤ 0 then 0
  else min (max 0 (expectedValue / payoff)) (maxSafeBet loss tc W)

/-- `FixedFractionStrategy.evaluate`. -/
def fixedFracEval (fraction payoff loss tc minProb p W : ℚ) : ℚ :=
  if minProb ≤ p then min fraction (maxSafeBet loss tc W) else 0

/-- Mutable state of `CPPIStrategy` together with its immutable
configuration. -/
structure CPPIState where
  floorFraction : ℚ
  multiplier : ℚ
  payoff : ℚ
  loss : ℚ
  tc : ℚ
  minProb : ℚ
  floor : ℚ
  currentBankroll : ℚ
  peakBankroll : ℚ
  deriving Repr, DecidableEq

/-- `CPPIStrategy.__init__`. -/
def cppiInit (floorFraction multiplier initialBankroll payoff loss tc
    minProb : ℚ) : CPPIState :=
  { floorFraction := floorFraction
    multiplier := multiplier
    payoff := payoff
    loss := loss
    tc := tc
    minProb := minProb
    floor := floorFraction * initialBankroll
    currentBankroll := initialBankroll
    peakBankroll := initialBankroll }

/-- `CPPIStrategy.update_bankroll`: the floor ratchets with new peaks. -/
def cppiUpdateBankroll (s : CPPIState) (newBankroll : ℚ) : CPPIState :=
  if s.peakBankroll < newBankroll then
    { s with currentBankroll := newBankroll
             peakBankroll := newBankroll
             floor := s.floorFraction * newBankroll }
  else { s with currentBankroll := newBankroll }

/-- `CPPIStrategy.evaluate`: returns the bet proportion and the updated
strategy state. -/
def cppiEval (s : CPPIState) (p W : ℚ) : ℚ × CPPIState :=
  let s := cppiUpdateBankroll s W
  if p < s.minProb then (0, s)
  else
    let expectedValue :=
      p * (s.payoff - s.tc) - (1 - p) * (s.loss + s.tc)
    if expectedValue ≤ 0 then (0, s)
    else
      let cushion := max 0 (W - s.floor)
      let adjustedMultiplier := s.multiplier * min 1 expectedValue
      let exposure := adjustedMultiplier * cushion
      if W ≤ 0 then (0, s)
      else
        let proportion := min 1 (exposure / W)
        let proportion :=
          if 0 < proportion then
            min (min proportion ((W - s.floor) / (W * (s.loss + s.tc))))
              (maxSafeBet s.loss s.tc W)
          else proportion
        (max 0 proportion, s)

/-- `MertonShare.evaluate`.  Arguments: payoff, loss, transaction cost,
`risk_aversion`, `min_probability`, `max_fraction`, probability, bankroll. -/
def mertonEval (payoff loss tc gamma minProb maxFrac p W : ℚ) : ℚ :=
  if p < minProb then 0
  else
    let expectedReturn := p * (payoff - tc) - (1 - p) * (loss + tc)
    if expectedReturn ≤ 0 then 0
    else
      let meanSquared := p * payoff ^ 2 + (1 - p) * loss ^ 2
      let variance := meanSquared - (p * payoff - (1 - p) * loss) ^ 2
      if variance ≤ 0 then 0
      else
        let mf := expectedReturn / (gamma * variance)
        let mf := max 0 (min mf maxFrac)
        min mf (maxSafeBet loss tc W)

/-- `MertonShare.evaluate` with every division guarded (`none` models a
Python ZeroDivisionError). -/
def mertonEvalChecked (payoff loss tc gamma minProb maxFrac p W : ℚ) :
    Option ℚ :=
  if p < minProb then some 0
  else
    let expectedReturn := p * (payoff - tc) - (1 - p) * (loss + tc)
    if expectedReturn ≤ 0 then some 0
    else
      let meanSquared := p * payoff ^ 2 + (1 - p) * loss ^ 2
      let variance := meanSquared - (p * payoff - (1 - p) * loss) ^ 2
      if variance ≤ 0 then some 0
      else if gamma * variance = 0 then none
      else
        let mf := expectedReturn / (gamma * variance)
        let mf := max 0 (min mf maxFrac)
        if W = 0 then none
        else some (min mf (maxSafeBet loss tc W))

/-- Mutable state of `DynamicBankrollManagement` together with its
immutable configuration.  Over `ℝ` because the volatility factor takes a
square root. -/
structure DBMState where
  baseFraction : ℝ
  payoff : ℝ
  loss : ℝ
  tc : ℝ
  windowSize : ℕ
  maxFraction : ℝ
  minFraction : ℝ
  results : List ℝ
  initialBankroll : Option ℝ
  currentBankroll : Option ℝ
  peakBankroll : Option ℝ

/-- `DynamicBankrollManagement.__init__` with a fresh (empty) running
state. -/
def dbmInit (baseFraction payoff loss tc : ℝ) (windowSize : ℕ)
    (maxFraction minFraction : ℝ) : DBMState :=
  { baseFraction := baseFraction
    payoff := payoff
    loss := loss
    tc := tc
    windowSize := windowSize
    maxFraction := maxFraction
    minFraction := minFraction
    results := []
    initialBankroll := none
    currentBankroll := none
    peakBankroll := none }

/-- `DynamicBankrollManagement.record_result`: append the realised return
(defaulting to `payoff` on a win and `-loss` on a loss) and evict the
oldest entry once the window exceeds `window_size`. -/
def dbmRecordResult (s : DBMState) (won : Bool) (returnPct : Option ℝ) :
    DBMState :=
  let r := returnPct.getD (if won then s.payoff else -s.loss)
  let results := s.results ++ [r]
  let results := if s.windowSize < results.length then results.drop 1
                 else results
  { s with results := results }

/-- Arithmetic mean of a list, `sum / len` (division by zero only for the
empty list, which every caller excludes). -/
noncomputable def listMean (l : List ℝ) : ℝ := l.sum / l.length

/-- `numpy.std`: population standard deviation. -/
noncomputable def popStd (l : List ℝ) : ℝ :=
  Real.sqrt ((l.map (fun x => (x - listMean l) ^ 2)).sum / l.length)

/-- `DynamicBankrollManagement.get_streak_factor`.  `none` models the
ZeroDivisionError of `scale` when `window_size` is zero (a state the
validated constructor cannot produce). -/
noncomputable def streakFactor (s : DBMState) : Option ℝ :=
  if s.results = [] then some 1
  else if s.windowSize = 0 then none
  else
    let scale := (min s.results.length s.windowSize : ℝ) / s.windowSize
    let wins := (s.results.filter (fun r => decide (0 < r))).length
    let losses := (s.results.filter (fun r => decide (r < 0))).length
    if losses = 0 then some (1 + 1/2 * scale)
    else if wins = 0 then some (1 - 1/2 * scale)
    else
      let winRatio := (wins : ℝ) / ((wins : ℝ) + (losses : ℝ))
      some (1 + (winRatio - 1/2) * scale)

/-- `DynamicBankrollManagement.get_volatility_factor`. -/
noncomputable def volatilityFactor (s : DBMState) : Option ℝ :=
  if s.results = [] then some 1
  else
    let volatility := popStd s.results
    if volatility = 0 then some 1
    else if s.windowSize = 0 then none
    else
      let scale := (min s.results.length s.windowSize : ℝ) / s.windowSize
      some (max (1/2) (1 - volatility * scale))

/-- `DynamicBankrollManagement.get_drawdown_factor`.  `none` models the
ZeroDivisionError of `current / peak` when the peak bankroll is zero. -/
noncomputable def drawdownFactor (s : DBMState) : Option ℝ :=
  match s.currentBankroll, s.peakBankroll with
  | some c, some pk =>
      if pk = 0 then none
      else some (max (1/2) (1 - (1 - c / pk)))
  | _, _ => some 1

/-- `DynamicBankrollManagement.get_probability_factor`. -/
noncomputable def probabilityFactor (s : DBMState) (p : ℝ) : Option ℝ :=
  if s.results = [] then some 1
  else some (max (1/2) (min (3/2) (1 + (p - 1/2))))

/-- The bankroll-tracking update at the top of
`DynamicBankrollManagement.evaluate`.  (`getD` is only reached on states
with `initial_bankroll` set but `peak_bankroll` unset, which the source
itself can never produce.) -/
def dbmUpdate (s : DBMState) (W : ℝ) : DBMState :=
  let s :=
    if s.initialBankroll.isNone then
      { s with initialBankroll := some W, peakBankroll := some W }
    else s
  { s with currentBankroll := some W
           peakBankroll := some (max (s.peakBankroll.getD W) W) }

/-- `DynamicBankrollManagement.evaluate`: combines the four factors,
scales `base_fraction` and clamps to `[min_fraction, max_fraction]`.
The result is paired with the updated state; `none` models a raised
ZeroDivisionError inside a factor. -/
noncomputable def dbmEval (s : DBMState) (p W : ℝ) : Option (ℝ × DBMState) :=
  let s := dbmUpdate s W
  match streakFactor s, volatilityFactor s, drawdownFactor s,
      probabilityFactor s p with
  | some sf, some vf, some df, some pf =>
      let betSize := s.baseFraction * (sf * vf * df * pf)
      some (max s.minFraction (min s.maxFraction betSize), s)
  | _, _, _, _ => none

/-- A freshly constructed
`DynamicBankrollManagement(base_fraction=0.1, payoff=1, loss=1,
transaction_cost=0)` with the default `window_size=10`,
`max_fraction=0.2`, `min_fraction=0.05`. -/
noncomputable def dbmFresh : DBMState := dbmInit (1/10) 1 1 0 10 (1/5) (1/20)

/-- A freshly constructed
`DynamicBankrollManagement(base_fraction=0.2, payoff=1, loss=10,
transaction_cost=0)` with the default window and fraction bounds. -/
noncomputable def dbmSample : DBMState := dbmInit (1/5) 1 10 0 10 (1/5) (1/20)

/-- One iteration structure of the `while high - low > tolerance` loop of
`find_indifference_price` (src/keeks/utils.py), with explicit fuel.
`accept mid` stands for the comparison
`expected_utility(...) > current_utility` deciding which half to keep. -/
def bisect (accept : ℚ → Bool) (tol : ℚ) : ℕ → ℚ → ℚ → ℚ × ℚ
  | 0, low, high => (low, high)
  | n + 1, low, high =>
      if high - low ≤ tol then (low, high)
      else
        let mid := (low + high) / 2
        if accept mid then bisect accept tol n mid high
        else bisect accept tol n low mid

/-- Fuel that suffices for the loop to reach its exit guard. -/
def fipFuel (W msf tol : ℚ) : ℕ := ⌈W * msf / tol⌉₊

/-- `find_indifference_price(outcomes, probabilities, current_wealth,
risk_aversion, tolerance, max_search_fraction)`: binary search from
`low = 0`, `high = current_wealth * max_search_fraction`, returning the
midpoint of the final interval.  The gamble and the risk aversion enter
only through the expected-utility comparison, abstracted as `accept`. -/
def findIndifferencePrice (accept : ℚ → Bool) (W msf tol : ℚ) : ℚ :=
  let lh := bisect accept tol (fipFuel W msf tol) 0 (W * msf)
  (lh.1 + lh.2) / 2

/-- The behaviour claimed for `find_indifference_price`: the loop reaches
its exit guard (final interval width at most the tolerance), the result
is stable under any additional fuel (the loop genuinely terminates
there), the returned value is the midpoint of the final interval, and it
lies between `0` and `max_search_fraction * current_wealth`. -/
def fipSpec (accept : ℚ → Bool) (W msf tol : ℚ) : Prop :=
  ((bisect accept tol (fipFuel W msf tol) 0 (W * msf)).2
      - (bisect accept tol (fipFuel W msf tol) 0 (W * msf)).1 ≤ tol)
  ∧ (∀ m, bisect accept tol (fipFuel W msf tol + m) 0 (W * msf)
        = bisect accept tol (fipFuel W msf tol) 0 (W * msf))
  ∧ findIndifferencePrice accept W msf tol
      = ((bisect accept tol (fipFuel W msf tol) 0 (W * msf)).1
          + (bisect accept tol (fipFuel W msf tol) 0 (W * msf)).2) / 2
  ∧ min 0 (W * msf) ≤ findIndifferencePrice accept W msf tol
  ∧ findIndifferencePrice accept W msf tol ≤ max 0 (W * msf)

/-! ## Theorems -/

/-- Claim C2.  The source withdraw has no bankruptcy check: on
`BankRoll(initial_funds=100).withdraw(150)` (default
`max_draw_down=0.3`, truthy) it first sets the bank to `-50`, then the
drawdown guard fires (`150 > 0.3 * round(-50, 2) = -15`) and it raises
the drawdown RuinError("slow down") — not a bankruptcy error — leaving
`total_funds = -50` instead of the claimed unchanged `100` (only the
history is left unchanged). -/
theorem c2_withdraw_bankruptcy_failing_eval :
    ((BankRoll.init 100 1 (some (3/10))).withdraw 150).2 = true
    ∧ ((BankRoll.init 100 1 (some (3/10))).withdraw 150).1.totalFunds = -50
    ∧ ((BankRoll.init 100 1 (some (3/10))).withdraw 150).1.history = [100] := by
  norm_num [BankRoll.init, BankRoll.withdraw, BankRoll.totalFunds, ddCheck,
    round2, roundHalfEven]

/-- Claim C3.  On `BankRoll(initial_funds=1000, max_draw_down=0.2)
.withdraw(250)` the source does raise the drawdown RuinError (since
`250 > 0.2 * round(750, 2) = 150`, a check made against the
POST-withdrawal funds, not the pre-withdrawal funds the claim
describes), but it mutates first: afterwards `total_funds = 750`, not
the claimed unchanged `1000`. -/
theorem c3_withdraw_drawdown_failing_eval :
    ((BankRoll.init 1000 1 (some (1/5))).withdraw 250).2 = true
    ∧ ((BankRoll.init 1000 1 (some (1/5))).withdraw 250).1.totalFunds = 750
    ∧ ((BankRoll.init 1000 1 (some (1/5))).withdraw 250).1.history = [1000] := by
  norm_num [BankRoll.init, BankRoll.withdraw, BankRoll.totalFunds, ddCheck,
    round2, roundHalfEven]

/-- Claim C4.  The non-negativity invariant fails: with
`max_draw_down=None` the drawdown guard is skipped entirely, so
`BankRoll(initial_funds=100, max_draw_down=None).withdraw(150)` returns
normally (no RuinError) and leaves the funds at `-50 < 0`, which even
enters the history. -/
theorem c4_funds_nonneg_failing_eval :
    ((BankRoll.init 100 1 none).withdraw 150).2 = false
    ∧ ((BankRoll.init 100 1 none).withdraw 150).1.bank = -50
    ∧ ((BankRoll.init 100 1 none).withdraw 150).1.history = [100, -50]
    ∧ ((BankRoll.init 100 1 none).withdraw 150).1.bank < 0 := by
  norm_num [BankRoll.init, BankRoll.withdraw, ddCheck, round2, roundHalfEven]

/-- Claim C7, counterexample.  `BankRoll(initial_funds=100)` (default
`max_draw_down=0.3`): `deposit(50)` then `withdraw(50)` raises on the
withdraw (`50 > 0.3 * round(100, 2) = 30`), so the history grows by 1,
not by the claimed 2. -/
theorem c7_counterexample_history_length :
    (((BankRoll.init 100 1 (some (3/10))).deposit 50).withdraw 50).1.history.length
      ≠ (BankRoll.init 100 1 (some (3/10))).history.length + 2 := by
  norm_num [BankRoll.init, BankRoll.withdraw, BankRoll.deposit, ddCheck,
    round2, roundHalfEven]

/-- Claim C7 as amended: for every bankroll and every positive `x`,
`deposit(x)` then `withdraw(x)` always restores the funds exactly (the
withdraw subtracts before any check, so this holds whether or not it
raises), but the history grows by 2 only when the withdraw's drawdown
guard does not fire; when it raises, the history grows by 1. -/
theorem c7_amended_round_trip (b : BankRoll) (x : ℚ) (hx : 0 < x) :
    ((b.deposit x).withdraw x).1.totalFunds = b.totalFunds
    ∧ ((b.deposit x).withdraw x).1.bank = b.bank
    ∧ ((b.deposit x).withdraw x).1.history.length
        = b.history.length + (if ((b.deposit x).withdraw x).2 then 1 else 2) := by
  have hb : b.bank + x - x = b.bank := by ring
  simp only [BankRoll.deposit, BankRoll.withdraw, BankRoll.totalFunds, hb]
  by_cases h : ddCheck b.maxDrawDown x (round2 b.bank)
  · simp [h, List.length_append]
  · simp [h, List.length_append]

theorem maxSafeBet_nonneg (loss tc W : ℚ) (hlt : 0 < loss + tc)
    (hW : 0 < W) : 0 ≤ maxSafeBet loss tc W :=
  le_min one_pos.le (div_pos (div_pos hW hlt) hW).le

theorem kellyEval_le (payoff loss tc minProb p W : ℚ) (hlt : 0 < loss + tc)
    (hW : 0 < W) : kellyEval payoff loss tc minProb p W ≤ maxSafeBet loss tc W := by
  unfold kellyEval
  dsimp only
  split_ifs
  · exact maxSafeBet_nonneg loss tc W hlt hW
  · exact maxSafeBet_nonneg loss tc W hlt hW
  · exact min_le_right _ _

theorem kellyEval_nonneg (payoff loss tc minProb p W : ℚ) (hlt : 0 < loss + tc)
    (hW : 0 < W) : 0 ≤ kellyEval payoff loss tc minProb p W := by
  unfold kellyEval
  dsimp only
  split_ifs
  · exact le_rfl
  · exact le_rfl
  · exact le_min (le_max_left _ _) (maxSafeBet_nonneg loss tc W hlt hW)

theorem cppiUpdateBankroll_loss (s : CPPIState) (W : ℚ) :
    (cppiUpdateBankroll s W).loss = s.loss := by
  unfold cppiUpdateBankroll
  split <;> rfl

theorem cppiUpdateBankroll_tc (s : CPPIState) (W : ℚ) :
    (cppiUpdateBankroll s W).tc = s.tc := by
  unfold cppiUpdateBankroll
  split <;> rfl

theorem cppiEval_le (s : CPPIState) (p W : ℚ) (hlt : 0 < s.loss + s.tc)
    (hW : 0 < W) : (cppiEval s p W).1 ≤ maxSafeBet s.loss s.tc W := by
  have hms := maxSafeBet_nonneg s.loss s.tc W hlt hW
  unfold cppiEval
  simp only [cppiUpdateBankroll_loss, cppiUpdateBankroll_tc]
  split_ifs with h1 h2 h3 h4
  · exact hms
  · exact hms
  · exact hms
  · exact max_le hms (min_le_right _ _)
  · exact max_le hms (le_trans (le_of_not_lt h4) hms)

theorem mertonEval_le (payoff loss tc gamma minProb maxFrac p W : ℚ)
    (hlt : 0 < loss + tc) (hW : 0 < W) :
    mertonEval payoff loss tc gamma minProb maxFrac p W ≤ maxSafeBet loss tc W := by
  have hms := maxSafeBet_nonneg loss tc W hlt hW
  unfold mertonEval
  dsimp only
  split_ifs
  · exact hms
  · exact hms
  · exact hms
  · exact min_le_right _ _

/-- Claim C1, counterexample.  `DynamicBankrollManagement(base_fraction=0.2,
payoff=1, loss=10, transaction_cost=0)` (default window and fraction
bounds), freshly constructed: `evaluate(0.5, 100)` returns `0.2`, but
`get_max_safe_bet(100) = min(1, (100/10)/100) = 0.1`, so this variant is
not clamped to the max safe bet. -/
theorem c1_counterexample_dynamic_exceeds_max_safe_bet :
    (dbmEval dbmSample (1/2) 100).map Prod.fst = some (1/5)
    ∧ maxSafeBet (10 : ℝ) 0 100 < 1/5 := by
  constructor
  · simp only [dbmEval, dbmUpdate, dbmSample, dbmInit, streakFactor,
      volatilityFactor, drawdownFactor, probabilityFactor, Option.isNone_none,
      if_true, Option.getD_some, Option.map_some]
    norm_num
  · norm_num [maxSafeBet]

/-- Claim C1 as amended: every binary strategy variant EXCEPT
DynamicBankrollManagement returns an `evaluate` value clamped to
`get_max_safe_bet(current_bankroll)`, for all constructor-valid
parameters, every probability and every positive bankroll.
(DynamicBankrollManagement instead clamps to
`[min_fraction, max_fraction]`, which can exceed the max safe bet — see
the counterexample.) -/
theorem c1_amended_max_safe_bet_clamp :
    (∀ payoff loss tc minProb p W : ℚ, 0 < payoff → 0 ≤ loss → 0 ≤ tc →
        0 < loss + tc → 0 ≤ minProb → minProb ≤ 1 → 0 < W →
        kellyEval payoff loss tc minProb p W ≤ maxSafeBet loss tc W)
    ∧ (∀ payoff loss tc fraction p W : ℚ, 0 < payoff → 0 ≤ loss → 0 ≤ tc →
        0 < loss + tc → 0 ≤ fraction → fraction ≤ 1 → 0 < W →
        fracKellyEval payoff loss tc fraction p W ≤ maxSafeBet loss tc W)
    ∧ (∀ payoff loss tc maxDD p W : ℚ, 0 < payoff → 0 ≤ loss → 0 ≤ tc →
        0 < loss + tc → 0 < maxDD → maxDD < 1 → 0 < W →
        drawdownKellyEval payoff loss tc maxDD p W ≤ maxSafeBet loss tc W)
    ∧ (∀ payoff loss tc winRate maxRisk p W : ℚ, 0 < payoff → 0 ≤ loss →
        0 ≤ tc → 0 < loss + tc → 0 ≤ winRate → winRate ≤ 1 → 0 < maxRisk →
        maxRisk ≤ 1 → 0 < W →
        optimalFEval payoff loss tc winRate maxRisk p W ≤ maxSafeBet loss tc W)
    ∧ (∀ payoff loss tc p W : ℚ, 0 < payoff → 0 ≤ loss → 0 ≤ tc →
        0 < loss + tc → 0 < W →
        naiveEval payoff loss tc p W ≤ maxSafeBet loss tc W)
    ∧ (∀ fraction payoff loss tc minProb p W : ℚ, 0 ≤ fraction → fraction ≤ 1 →
        0 < payoff → 0 ≤ loss → 0 ≤ tc → 0 < loss + tc → 0 ≤ minProb →
        minProb ≤ 1 → 0 < W →
        fixedFracEval fraction payoff loss tc minProb p W ≤ maxSafeBet loss tc W)
    ∧ (∀ (s : CPPIState) (p W : ℚ), 0 < s.loss + s.tc → 0 < W →
        (cppiEval s p W).1 ≤ maxSafeBet s.loss s.tc W)
    ∧ (∀ payoff loss tc gamma minProb maxFrac p W : ℚ, 0 < payoff → 0 ≤ loss →
        0 ≤ tc → 0 < loss + tc → 0 < gamma → 0 ≤ minProb → minProb ≤ 1 →
        0 < maxFrac → maxFrac ≤ 1 → 0 < W →
        mertonEval payoff loss tc gamma minProb maxFrac p W
          ≤ maxSafeBet loss tc W) := by
  refine ⟨?_, ?_, ?_, ?_, ?_, ?_, ?_, ?_⟩
  · intro payoff loss tc minProb p W _ _ _ hlt _ _ hW
    exact kellyEval_le payoff loss tc minProb p W hlt hW
  · intro payoff loss tc fraction p W _ _ _ hlt hf0 hf1 hW
    calc fraction * kellyEval payoff loss tc (1/2) p W
        ≤ 1 * kellyEval payoff loss tc (1/2) p W :=
          mul_le_mul_of_nonneg_right hf1
            (kellyEval_nonneg payoff loss tc (1/2) p W hlt hW)
      _ = kellyEval payoff loss tc (1/2) p W := one_mul _
      _ ≤ maxSafeBet loss tc W := kellyEval_le payoff loss tc (1/2) p W hlt hW
  · intro payoff loss tc maxDD p W _ _ _ _ _ _ _
    exact min_le_right _ _
  · intro payoff loss tc winRate maxRisk p W _ _ _ hlt _ _ _ _ hW
    unfold optimalFEval
    dsimp only
    split_ifs <;>
      first
      | exact maxSafeBet_nonneg loss tc W hlt hW
      | exact min_le_right _ _
  · intro payoff loss tc p W _ _ _ hlt hW
    unfold naiveEval
    dsimp only
    split_ifs
    · exact maxSafeBet_nonneg loss tc W hlt hW
    · exact min_le_right _ _
  · intro fraction payoff loss tc minProb p W _ _ _ _ _ hlt _ _ hW
    unfold fixedFracEval
    split_ifs
    · exact min_le_right _ _
    · exact maxSafeBet_nonneg loss tc W hlt hW
  · intro s p W hlt hW
    exact cppiEval_le s p W hlt hW
  · intro payoff loss tc gamma minProb maxFrac p W _ _ _ hlt _ _ _ _ _ hW
    exact mertonEval_le payoff loss tc gamma minProb maxFrac p W hlt hW

/-- Witness for the amended claim C1 at concrete parameters for each of
the eight clamped variants. -/
theorem c1_witness :
    (0 : ℚ) < 100
    ∧ kellyEval 2 1 0 (1/2) (3/5) 100 ≤ maxSafeBet 1 0 100
    ∧ fracKellyEval 2 1 0 (1/2) (3/5) 100 ≤ maxSafeBet 1 0 100
    ∧ drawdownKellyEval 2 1 0 (1/5) (3/5) 100 ≤ maxSafeBet 1 0 100
    ∧ optimalFEval 2 1 0 (3/5) (1/5) (3/5) 100 ≤ maxSafeBet 1 0 100
    ∧ naiveEval 2 1 0 (3/5) 100 ≤ maxSafeBet 1 0 100
    ∧ fixedFracEval (1/10) 2 1 0 (1/2) (3/5) 100 ≤ maxSafeBet 1 0 100
    ∧ (cppiEval (cppiInit (1/2) 2 1000 1 1 0 (1/2)) (3/5) 1000).1
        ≤ maxSafeBet 1 0 1000
    ∧ mertonEval 1 1 0 2 (1/2) 1 (3/5) 100 ≤ maxSafeBet 1 0 100 :=
  ⟨by norm_num,
   c1_amended_max_safe_bet_clamp.1 2 1 0 (1/2) (3/5) 100 (by norm_num)
     (by norm_num) (by norm_num) (by norm_num) (by norm_num) (by norm_num)
     (by norm_num),
   c1_amended_max_safe_bet_clamp.2.1 2 1 0 (1/2) (3/5) 100 (by norm_num)
     (by norm_num) (by norm_num) (by norm_num) (by norm_num) (by norm_num)
     (by norm_num),
   c1_amended_max_safe_bet_clamp.2.2.1 2 1 0 (1/5) (3/5) 100 (by norm_num)
     (by norm_num) (by norm_num) (by norm_num) (by norm_num) (by norm_num)
     (by norm_num),
   c1_amended_max_safe_bet_clamp.2.2.2.1 2 1 0 (3/5) (1/5) (3/5) 100
     (by norm_num) (by norm_num) (by norm_num) (by norm_num) (by norm_num)
     (by norm_num) (by norm_num) (by norm_num) (by norm_num),
   c1_amended_max_safe_bet_clamp.2.2.2.2.1 2 1 0 (3/5) 100 (by norm_num)
     (by norm_num) (by norm_num) (by norm_num) (by norm_num),
   c1_amended_max_safe_bet_clamp.2.2.2.2.2.1 (1/10) 2 1 0 (1/2) (3/5) 100
     (by norm_num) (by norm_num) (by norm_num) (by norm_num) (by norm_num)
     (by norm_num) (by norm_num) (by norm_num) (by norm_num),
   c1_amended_max_safe_bet_clamp.2.2.2.2.2.2.1
     (cppiInit (1/2) 2 1000 1 1 0 (1/2)) (3/5) 1000 (by norm_num [cppiInit])
     (by norm_num),
   c1_amended_max_safe_bet_clamp.2.2.2.2.2.2.2 1 1 0 2 (1/2) 1 (3/5) 100
     (by norm_num) (by norm_num) (by norm_num) (by norm_num) (by norm_num)
     (by norm_num) (by norm_num) (by norm_num) (by norm_num) (by norm_num)⟩

theorem maxSafeBet_eq_one_of_ne (W : ℚ) (hW : W ≠ 0) :
    maxSafeBet 1 0 W = 1 := by
  unfold maxSafeBet
  rw [add_zero, div_one, div_self hW, min_self]

/-- Claim C5, counterexample.  At bankroll `W = 0` the claimed identity
fails: `get_max_safe_bet(0)` divides by the zero bankroll, so
`KellyCriterion(payoff=2, loss=1, transaction_cost=0).evaluate(0.5, 0)`
raises a ZeroDivisionError instead of returning `0.25`. -/
theorem c5_counterexample_zero_bankroll :
    ¬kellyEvalChecked 2 1 0 (1/2) (1/2) 0 = some (1/4) := by
  norm_num [kellyEvalChecked]
  exact fun h => Option.noConfusion h

/-- Claim C5 as amended: for every NONZERO bankroll `W`,
`KellyCriterion(payoff=2, loss=1, transaction_cost=0).evaluate(0.5, W)`
returns exactly `0.25` and
`KellyCriterion(payoff=5, loss=1, transaction_cost=0).evaluate(0.5, W)`
returns exactly `0.40` (no division raises along the way). -/
theorem c5_amended_kelly_known_values (W : ℚ) (hW : W ≠ 0) :
    kellyEvalChecked 2 1 0 (1/2) (1/2) W = some (1/4)
    ∧ kellyEvalChecked 5 1 0 (1/2) (1/2) W = some (2/5) := by
  have h1 := maxSafeBet_eq_one_of_ne W hW
  constructor <;> norm_num [kellyEvalChecked, h1, hW]

/-- Witness for the amended claim C5 at `W = 100`. -/
theorem c5_witness :
    (100 : ℚ) ≠ 0
    ∧ (kellyEvalChecked 2 1 0 (1/2) (1/2) 100 = some (1/4)
        ∧ kellyEvalChecked 5 1 0 (1/2) (1/2) 100 = some (2/5)) :=
  ⟨by norm_num, c5_amended_kelly_known_values 100 (by norm_num)⟩

/-- Claim C6.  A freshly constructed
`CPPIStrategy(floor_fraction=0.5, multiplier=2, initial_bankroll=1000,
payoff=1, loss=1, transaction_cost=0)` (default `min_probability=0.5`)
returns exactly `0.2` from `evaluate(0.6, 1000)`: floor `500`, cushion
`500`, expected value per unit `0.2`, adjusted multiplier `0.4`,
exposure `200`, proportion `0.2`, below both the floor cap `0.5` and the
max safe bet `1`. -/
theorem c6_cppi_scenario :
    (cppiEval (cppiInit (1/2) 2 1000 1 1 0 (1/2)) (3/5) 1000).1 = 1/5 := by
  norm_num [cppiEval, cppiInit, cppiUpdateBankroll, maxSafeBet]

/-- Claim C9.  The blanket no-raise policy fails on KellyCriterion: the
discarded expression `self.payoff / self.loss` at the top of
`KellyCriterion.evaluate` is unguarded, so the constructor-valid
configuration `KellyCriterion(payoff=1, loss=0, transaction_cost=0.5)`
(valid since `loss + transaction_cost = 0.5 > 0` and
`transaction_cost < payoff`) raises ZeroDivisionError at
`evaluate(1, 100)` (first conjunct, `none` models the raise).  The
other behaviours the claim describes do hold:
`MertonShare(payoff=1, loss=1, transaction_cost=0)` returns `0` at
probability `1` (zero variance) and at probability `0` (gated), and
`KellyCriterion(payoff=2, loss=1, transaction_cost=0)` at probability
`1` returns the full safe fraction `get_max_safe_bet(100)`. -/
theorem c9_edge_case_evals :
    kellyEvalChecked 1 0 (1/2) (1/2) 1 100 = none
    ∧ mertonEvalChecked 1 1 0 2 (1/2) 1 1 100 = some 0
    ∧ mertonEvalChecked 1 1 0 2 (1/2) 1 0 100 = some 0
    ∧ kellyEvalChecked 2 1 0 (1/2) 1 100 = some (maxSafeBet 1 0 100) := by
  have h1 : maxSafeBet 1 0 (100 : ℚ) = 1 := maxSafeBet_eq_one_of_ne 100 (by norm_num)
  refine ⟨?_, ?_, ?_, ?_⟩
  · norm_num [kellyEvalChecked]
  · norm_num [mertonEvalChecked]
  · norm_num [mertonEvalChecked]
  · norm_num [kellyEvalChecked, h1]

theorem dbmUpdate_windowSize (s : DBMState) (W : ℝ) :
    (dbmUpdate s W).windowSize = s.windowSize := by
  unfold dbmUpdate
  dsimp only
  split <;> rfl

theorem dbmUpdate_results (s : DBMState) (W : ℝ) :
    (dbmUpdate s W).results = s.results := by
  unfold dbmUpdate
  dsimp only
  split <;> rfl

theorem dbmUpdate_minFraction (s : DBMState) (W : ℝ) :
    (dbmUpdate s W).minFraction = s.minFraction := by
  unfold dbmUpdate
  dsimp only
  split <;> rfl

theorem dbmUpdate_currentBankroll (s : DBMState) (W : ℝ) :
    (dbmUpdate s W).currentBankroll = some W := by
  unfold dbmUpdate
  dsimp only

theorem dbmUpdate_peakBankroll (s : DBMState) (W : ℝ) :
    ∃ pk, (dbmUpdate s W).peakBankroll = some pk ∧ W ≤ pk := by
  unfold dbmUpdate
  dsimp only
  split
  · exact ⟨_, rfl, le_max_right _ _⟩
  · exact ⟨_, rfl, le_max_right _ _⟩

theorem streakFactor_isSome (s : DBMState) (hws : s.windowSize ≠ 0) :
    ∃ x, streakFactor s = some x := by
  unfold streakFactor
  dsimp only
  split_ifs <;> first | exact ⟨_, rfl⟩ | exact absurd (by assumption) hws

theorem volatilityFactor_isSome (s : DBMState) (hws : s.windowSize ≠ 0) :
    ∃ x, volatilityFactor s = some x := by
  unfold volatilityFactor
  dsimp only
  split_ifs <;> first | exact ⟨_, rfl⟩ | exact absurd (by assumption) hws

theorem probabilityFactor_isSome (s : DBMState) (p : ℝ) :
    ∃ x, probabilityFactor s p = some x := by
  unfold probabilityFactor
  split_ifs <;> exact ⟨_, rfl⟩

/-- Claim C10, counterexample.  The claim quantifies over every bankroll
value, but at bankroll `0` a freshly constructed
`DynamicBankrollManagement(base_fraction=0.1, payoff=1, loss=1,
transaction_cost=0)` tracks a peak bankroll of `0`, and the drawdown
factor computes `current_bankroll / peak_bankroll = 0 / 0`, raising a
ZeroDivisionError (modelled by `none`) instead of returning a value
at least `min_fraction`. -/
theorem c10_counterexample_zero_bankroll_raises :
    dbmEval dbmFresh (1/2) 0 = none := by
  simp [dbmEval, dbmUpdate, dbmFresh, dbmInit, streakFactor,
    volatilityFactor, drawdownFactor, probabilityFactor]

/-- Claim C10 as amended: for every state with a nonzero window size
(guaranteed by the constructor) and every POSITIVE bankroll,
`DynamicBankrollManagement.evaluate` returns normally — there is no
`min_probability` gate, the probability may be anything including `0` —
and the returned bet is at least `min_fraction`; in particular it is
nonzero whenever `min_fraction > 0` (as with the default `0.05`), even
for a gamble with negative expected value. -/
theorem c10_amended_min_fraction_floor (s : DBMState) (p W : ℝ)
    (hws : s.windowSize ≠ 0) (hW : 0 < W) :
    ∃ v s2, dbmEval s p W = some (v, s2)
      ∧ s.minFraction ≤ v
      ∧ (0 < s.minFraction → v ≠ 0) := by
  obtain ⟨sf, hsf⟩ := streakFactor_isSome (dbmUpdate s W)
    (by rw [dbmUpdate_windowSize]; exact hws)
  obtain ⟨vf, hvf⟩ := volatilityFactor_isSome (dbmUpdate s W)
    (by rw [dbmUpdate_windowSize]; exact hws)
  obtain ⟨pf, hpf⟩ := probabilityFactor_isSome (dbmUpdate s W) p
  obtain ⟨pk, hpk, hWpk⟩ := dbmUpdate_peakBankroll s W
  have hpk0 : pk ≠ 0 := ne_of_gt (lt_of_lt_of_le hW hWpk)
  have hdf : drawdownFactor (dbmUpdate s W)
      = some (max (1/2) (1 - (1 - W / pk))) := by
    unfold drawdownFactor
    rw [dbmUpdate_currentBankroll, hpk]
    simp [hpk0]
  have hle : s.minFraction ≤ max (dbmUpdate s W).minFraction
      (min (dbmUpdate s W).maxFraction
        ((dbmUpdate s W).baseFraction
          * (sf * vf * max (1/2) (1 - (1 - W / pk)) * pf))) := by
    rw [dbmUpdate_minFraction]
    exact le_max_left _ _
  refine ⟨max (dbmUpdate s W).minFraction
      (min (dbmUpdate s W).maxFraction
        ((dbmUpdate s W).baseFraction
          * (sf * vf * max (1/2) (1 - (1 - W / pk)) * pf))),
    dbmUpdate s W, ?_, hle, fun hmin => ne_of_gt (lt_of_lt_of_le hmin hle)⟩
  unfold dbmEval
  dsimp only
  rw [hsf, hvf, hdf, hpf]

/-- Witness for the amended claim C10 on a fresh default strategy, at
probability `0` and bankroll `100`. -/
theorem c10_witness :
    dbmFresh.windowSize ≠ 0
    ∧ (0 : ℝ) < 100
    ∧ (∃ v s2, dbmEval dbmFresh 0 100 = some (v, s2)
        ∧ dbmFresh.minFraction ≤ v
        ∧ (0 < dbmFresh.minFraction → v ≠ 0)) :=
  ⟨by simp [dbmFresh, dbmInit], by norm_num,
   c10_amended_min_fraction_floor dbmFresh 0 100
     (by simp [dbmFresh, dbmInit]) (by norm_num)⟩

theorem bisect_eq_of_le (a : ℚ → Bool) (tol low high : ℚ)
    (h : high - low ≤ tol) : ∀ n, bisect a tol n low high = (low, high) := by
  intro n
  cases n with
  | zero => rfl
  | succ n => unfold bisect; rw [if_pos h]

theorem bisect_succ_of_not (a : ℚ → Bool) (tol low high : ℚ)
    (h : ¬high - low ≤ tol) (n : ℕ) :
    bisect a tol (n + 1) low high
      = if a ((low + high) / 2) then bisect a tol n ((low + high) / 2) high
        else bisect a tol n low ((low + high) / 2) := by
  conv_lhs => rw [bisect]
  rw [if_neg h]

theorem bisect_width (a : ℚ → Bool) (tol : ℚ) :
    ∀ (n : ℕ) (low high : ℚ),
      (bisect a tol n low high).2 - (bisect a tol n low high).1
        ≤ max ((high - low) / 2 ^ n) tol := by
  intro n
  induction n with
  | zero =>
      intro low high
      show high - low ≤ max ((high - low) / 2 ^ 0) tol
      rw [pow_zero, div_one]
      exact le_max_left _ _
  | succ n ih =>
      intro low high
      unfold bisect
      by_cases h : high - low ≤ tol
      · rw [if_pos h]
        exact le_trans h (le_max_right _ _)
      · rw [if_neg h]
        dsimp only
        by_cases hacc : a ((low + high) / 2)
        · rw [if_pos hacc]
          refine le_trans (ih _ _) (le_of_eq ?_)
          have h2 : (high - (low + high) / 2) / 2 ^ n
              = (high - low) / 2 ^ (n + 1) := by
            rw [pow_succ]
            field_simp
            ring
          rw [h2]
        · rw [if_neg hacc]
          refine le_trans (ih _ _) (le_of_eq ?_)
          have h2 : ((low + high) / 2 - low) / 2 ^ n
              = (high - low) / 2 ^ (n + 1) := by
            rw [pow_succ]
            field_simp
            ring
          rw [h2]

theorem bisect_bounds (a : ℚ → Bool) (tol : ℚ) :
    ∀ (n : ℕ) (low high : ℚ), low ≤ high →
      low ≤ (bisect a tol n low high).1
      ∧ (bisect a tol n low high).1 ≤ (bisect a tol n low high).2
      ∧ (bisect a tol n low high).2 ≤ high := by
  intro n
  induction n with
  | zero => intro low high h; exact ⟨le_rfl, h, le_rfl⟩
  | succ n ih =>
      intro low high h
      unfold bisect
      by_cases hle : high - low ≤ tol
      · rw [if_pos hle]; exact ⟨le_rfl, h, le_rfl⟩
      · rw [if_neg hle]
        dsimp only
        have hm1 : low ≤ (low + high) / 2 := by linarith
        have hm2 : (low + high) / 2 ≤ high := by linarith
        by_cases hacc : a ((low + high) / 2)
        · rw [if_pos hacc]
          obtain ⟨g1, g2, g3⟩ := ih ((low + high) / 2) high hm2
          exact ⟨le_trans hm1 g1, g2, g3⟩
        · rw [if_neg hacc]
          obtain ⟨g1, g2, g3⟩ := ih low ((low + high) / 2) hm1
          exact ⟨g1, g2, le_trans g3 hm2⟩

theorem bisect_add (a : ℚ → Bool) (tol : ℚ) :
    ∀ (n m : ℕ) (low high : ℚ),
      bisect a tol (n + m) low high
        = bisect a tol m (bisect a tol n low high).1
            (bisect a tol n low high).2 := by
  intro n
  induction n with
  | zero => intro m low high; rw [Nat.zero_add]; rfl
  | succ n ih =>
      intro m low high
      rw [Nat.succ_add]
      by_cases h : high - low ≤ tol
      · rw [bisect_eq_of_le a tol low high h (n + m + 1),
          bisect_eq_of_le a tol low high h (n + 1)]
        exact (bisect_eq_of_le a tol low high h m).symm
      · rw [bisect_succ_of_not a tol low high h (n + m),
          bisect_succ_of_not a tol low high h n]
        by_cases hacc : a ((low + high) / 2)
        · rw [if_pos hacc, if_pos hacc, ih]
        · rw [if_neg hacc, if_neg hacc, ih]

theorem fipFuel_sufficient (W msf tol : ℚ) (ht : 0 < tol) :
    W * msf / 2 ^ fipFuel W msf tol ≤ tol := by
  have hpow : (0 : ℚ) < 2 ^ fipFuel W msf tol := by positivity
  rcases le_or_lt (W * msf) 0 with h | h
  · exact le_trans (div_nonpos_iff.mpr (Or.inr ⟨h, hpow.le⟩)) ht.le
  · rw [div_le_iff hpow]
    have hx : W * msf / tol ≤ (fipFuel W msf tol : ℚ) := Nat.le_ceil _
    have h2 : (fipFuel W msf tol : ℚ) ≤ 2 ^ fipFuel W msf tol := by
      exact_mod_cast (Nat.lt_two_pow (fipFuel W msf tol)).le
    have h3 : W * msf ≤ tol * (fipFuel W msf tol : ℚ) := by
      rw [div_le_iff ht] at hx
      linarith
    calc W * msf ≤ tol * (fipFuel W msf tol : ℚ) := h3
      _ ≤ tol * 2 ^ fipFuel W msf tol :=
          mul_le_mul_of_nonneg_left h2 ht.le
      _ = tol * 2 ^ fipFuel W msf tol := rfl

/-- Claim C8.  For every comparison oracle (hence every gamble
specification and risk aversion), non-negative current wealth and
positive tolerance, the binary search of `find_indifference_price`
reaches its exit guard (final interval width at most `tolerance`), is
unchanged by any additional loop fuel (it genuinely terminates there),
and returns the midpoint of the final interval, which lies between `0`
and `max_search_fraction * current_wealth`. -/
theorem c8_find_indifference_price_terminates (accept : ℚ → Bool)
    (W msf tol : ℚ) (hW : 0 ≤ W) (ht : 0 < tol) :
    fipSpec accept W msf tol := by
  have hwidth : (bisect accept tol (fipFuel W msf tol) 0 (W * msf)).2
      - (bisect accept tol (fipFuel W msf tol) 0 (W * msf)).1 ≤ tol := by
    refine le_trans (bisect_width accept tol (fipFuel W msf tol) 0 (W * msf)) ?_
    refine max_le ?_ le_rfl
    simpa using fipFuel_sufficient W msf tol ht
  refine ⟨hwidth, ?_, rfl, ?_, ?_⟩
  · intro m
    rw [bisect_add]
    exact (bisect_eq_of_le accept tol _ _ hwidth m).trans rfl
  · rcases le_or_lt 0 (W * msf) with hx | hx
    · obtain ⟨g1, g2, g3⟩ :=
        bisect_bounds accept tol (fipFuel W msf tol) 0 (W * msf) hx
      have : 0 ≤ findIndifferencePrice accept W msf tol := by
        unfold findIndifferencePrice
        dsimp only
        linarith
      exact le_trans (min_le_left _ _) this
    · have hb := bisect_eq_of_le accept tol 0 (W * msf)
        (by linarith) (fipFuel W msf tol)
      unfold findIndifferencePrice
      rw [hb]
      dsimp only
      refine le_trans (min_le_right 0 (W * msf)) ?_
      linarith
  · rcases le_or_lt 0 (W * msf) with hx | hx
    · obtain ⟨g1, g2, g3⟩ :=
        bisect_bounds accept tol (fipFuel W msf tol) 0 (W * msf) hx
      have : findIndifferencePrice accept W msf tol ≤ W * msf := by
        unfold findIndifferencePrice
        dsimp only
        linarith
      exact le_trans this (le_max_right _ _)
    · have hb := bisect_eq_of_le accept tol 0 (W * msf)
        (by linarith) (fipFuel W msf tol)
      unfold findIndifferencePrice
      rw [hb]
      dsimp only
      refine le_trans ?_ (le_max_left 0 (W * msf))
      linarith

/-- Witness for claim C8 with an oracle accepting every price, wealth
`1000`, `max_search_fraction = 0.5`, `tolerance = 0.01`. -/
theorem c8_witness :
    (0 : ℚ) ≤ 1000
    ∧ (0 : ℚ) < 1/100
    ∧ fipSpec (fun _ => true) 1000 (1/2) (1/100) :=
  ⟨by norm_num, by norm_num,
   c8_find_indifference_price_terminates (fun _ => true) 1000 (1/2) (1/100)
     (by norm_num) (by norm_num)⟩

/-- Witness for the amended claim C7 at
`BankRoll(initial_funds=100, max_draw_down=None)`, `x = 50`. -/
theorem c7_witness :
    (0 : ℚ) < 50
    ∧ ((((BankRoll.init 100 1 none).deposit 50).withdraw 50).1.totalFunds
          = (BankRoll.init 100 1 none).totalFunds
        ∧ (((BankRoll.init 100 1 none).deposit 50).withdraw 50).1.bank
          = (BankRoll.init 100 1 none).bank
        ∧ (((BankRoll.init 100 1 none).deposit 50).withdraw 50).1.history.length
          = (BankRoll.init 100 1 none).history.length
            + (if (((BankRoll.init 100 1 none).deposit 50).withdraw 50).2
                then 1 else 2)) :=
  ⟨by norm_num, c7_amended_round_trip (BankRoll.init 100 1 none) 50 (by norm_num)⟩

end Keeks
